import Mathlib

/-!
Shallow embedding of `sheeprl/data/buffers.py`: the fixed-capacity circular
`ReplayBuffer` (cursor tracking, batched `add` with wraparound, uniform
`sample`) and the `SequentialReplayBuffer` window sampler.

Modelling conventions:
* a tensor is an index function; the column table `self._buf` is a total
  function `slot → env → α` (the non-memmap construction allocates the
  table eagerly, so the `_buf is None` branch never fires);
* a batch with leading shape `[L, n_envs]` is a `List (Nat → α)` of its `L`
  rows, each row a function of the environment index, so the rank-2 shape
  check of `add` holds by construction;
* Python ints are `Int` where the source can go negative, `Nat` where it
  cannot (`pos`, `buffer_size`, `n_envs`);
* every outcome of `torch.randint(0, n, (k,))` is an explicit function
  `Nat → Nat` supplied by the caller; theorems quantify over all outcomes,
  bounded by the same `n` the source passes to `randint`;
* `torch` raises on an index/value length mismatch in `buf[idxes, :] = v`
  unless the value side has length 1, in which case it broadcasts; a
  sequential in-order write realizes the last-write-wins semantics of the
  index-put assignment;
* exceptions are `Except` errors, one constructor per distinct `raise`.
-/

/-- Python `range(a, b)` over arbitrary integers, as a list. -/
def pyRange (a b : Int) : List Int :=
  (List.range (b - a).toNat).map (fun (k : Nat) => a + (k : Int))

/-- Python `range(a, b)` for the all-natural index ranges built by `add`. -/
def pyRangeN (a b : Nat) : List Nat := List.range' a (b - a)

/-- Python slice `l[i:]`; a negative `i` counts from the end, clamped to 0. -/
def pySliceFrom {γ : Type} (l : List γ) (i : Int) : List γ :=
  if i < 0 then l.drop (((l.length : Int) + i).toNat) else l.drop i.toNat

theorem mem_pyRange {x a b : Int} : x ∈ pyRange a b ↔ a ≤ x ∧ x < b := by
  simp only [pyRange, List.mem_map, List.mem_range]
  constructor
  · rintro ⟨k, hk, rfl⟩
    omega
  · intro h
    refine ⟨(x - a).toNat, by omega, by omega⟩

theorem length_pyRange (a b : Int) : (pyRange a b).length = (b - a).toNat := by
  simp [pyRange]

theorem pyRange_append {a b c : Int} (h1 : a ≤ b) (h2 : b ≤ c) :
    pyRange a b ++ pyRange b c = pyRange a c := by
  unfold pyRange
  have hn : (c - a).toNat = (b - a).toNat + (c - b).toNat := by omega
  rw [hn, List.range_add, List.map_append, List.map_map]
  congr 1
  refine List.map_congr_left ?_
  intro k _
  simp only [Function.comp_apply]
  omega

/-- Cursor state and storage table of `ReplayBuffer.__init__` (non-memmap:
the table exists from construction; `_pos = 0`, `_full = False` initially). -/
structure ReplayBuffer (α : Type) where
  bufferSize : Nat
  nEnvs : Nat
  buf : Nat → Nat → α
  pos : Nat
  full : Bool

/-- The one exception `add` can hit after its rank check: the torch index
assignment `self._buf[idxes, :] = data_to_store` with mismatched lengths. -/
inductive AddError where
  | writeShapeMismatch
deriving DecidableEq

/-- Write one batch row at slot `i` across all environments. -/
def writeRow {α : Type} (buf : Nat → Nat → α) (i : Nat) (row : Nat → α) :
    Nat → Nat → α :=
  fun s e => if s = i then row e else buf s e

/-- Sequential in-order writes: a later pair overrides an earlier one at the
same slot, matching the index-put assignment's last-write-wins behaviour. -/
def writeRows {α : Type} (buf : Nat → Nat → α) (ps : List (Nat × (Nat → α))) :
    Nat → Nat → α :=
  ps.foldl (fun b p => writeRow b p.1 p.2) buf

/-- The destination slot indices of `add` (buffers.py lines 99-104): the
wraparound concatenation `range(pos, buffer_size) + range(0, next_pos)`
when the write wraps (or is an over-full first fill), else the contiguous
`range(pos, next_pos)`. -/
def addIdxes (bufferSize pos nextPos dataLen : Nat) (full : Bool) : List Nat :=
  if nextPos < pos ∨ (bufferSize ≤ dataLen ∧ full = false) then
    pyRangeN pos bufferSize ++ pyRangeN 0 nextPos
  else
    pyRangeN pos nextPos

/-- The rows actually written by `add` (buffers.py lines 105-108): the slice
`data[-buffer_size - next_pos:]` when the batch is longer than capacity,
else the whole batch. -/
def addDataToStore {α : Type} (bufferSize nextPos : Nat)
    (data : List (Nat → α)) : List (Nat → α) :=
  if bufferSize < data.length then
    pySliceFrom data (-(bufferSize : Int) - (nextPos : Int))
  else data

/-- The `full` flag after `add` (buffers.py lines 120-121): set when
`pos + data_len >= buffer_size`, otherwise kept. -/
def addFull (bufferSize pos dataLen : Nat) (full : Bool) : Bool :=
  if bufferSize ≤ pos + dataLen then true else full

/-- `ReplayBuffer.add` (buffers.py lines 97-122), after the rank-2 shape
check that our batch representation satisfies by construction:
destination indices with wraparound, the `data[-buffer_size - next_pos:]`
slice on an over-long batch, the table write, then `full` and `pos`. -/
def ReplayBuffer.add {α : Type} (rb : ReplayBuffer α) (data : List (Nat → α)) :
    Except AddError (ReplayBuffer α) :=
  let dataLen := data.length
  let nextPos := (rb.pos + dataLen) % rb.bufferSize
  let idxes := addIdxes rb.bufferSize rb.pos nextPos dataLen rb.full
  let dataToStore := addDataToStore rb.bufferSize nextPos data
  let write : List (Nat → α) → ReplayBuffer α := fun rows =>
    { rb with
      buf := writeRows rb.buf (idxes.zip rows)
      full := addFull rb.bufferSize rb.pos dataLen rb.full
      pos := nextPos }
  if idxes.length = dataToStore.length then
    .ok (write dataToStore)
  else
    match dataToStore with
    | [r] => .ok (write (List.replicate idxes.length r))
    | _ => .error .writeShapeMismatch

theorem addFull_eq_true {bufferSize pos dataLen : Nat} {full : Bool} :
    addFull bufferSize pos dataLen full = true ↔
      (full = true ∨ bufferSize ≤ pos + dataLen) := by
  unfold addFull
  split_ifs with h <;> simp [h]

/-- The exceptions of `ReplayBuffer.sample` (buffers.py lines 140-161), one
constructor per distinct raise site; `emptyValidRange` is the RuntimeError
`torch.randint(0, 0, ...)` raises when `valid_idxes` is empty. -/
inductive SampleError where
  | invalidBatchSize
  | emptyBuffer
  | insufficientData
  | emptyValidRange
deriving DecidableEq

/-- The `valid_idxes` tensor of the full branch of `ReplayBuffer.sample`
(buffers.py lines 146-152). -/
def validIdxesFull (bufferSize pos : Nat) (sampleNextObs : Bool) : List Int :=
  let firstRangeEnd : Int := if sampleNextObs then (pos : Int) - 1 else (pos : Int)
  let secondRangeEnd : Int :=
    if 0 ≤ firstRangeEnd then (bufferSize : Int) else (bufferSize : Int) + firstRangeEnd
  pyRange 0 firstRangeEnd ++ pyRange (pos : Int) secondRangeEnd

/-- The result of `ReplayBuffer.sample`: the drawn slot indices, the per-draw
environment indices, the gathered rows, and (when requested) the companion
next-observation rows; each field is the corresponding tensor of the source
as an index function of the draw number. -/
structure UniformSample (α : Type) where
  batchIdxes : Nat → Int
  envIdxes : Nat → Nat
  rows : Nat → α
  nextRows : Option (Nat → α)

/-- `ReplayBuffer._get_samples` (buffers.py lines 167-174): a fresh uniform
environment per draw (`envDraw`, the outcome of `randint(0, n_envs, ...)`),
gather at `(batch_idxes, env_idxes)`, and with `sample_next_obs` also gather
the designated field at `((batch_idxes + 1) % buffer_size, env_idxes)`. -/
def ReplayBuffer.getSamples {α : Type} (rb : ReplayBuffer α) (batchIdxes : Nat → Int)
    (sampleNextObs : Bool) (envDraw : Nat → Nat) : UniformSample α :=
  { batchIdxes := batchIdxes
    envIdxes := envDraw
    rows := fun i => rb.buf (batchIdxes i).toNat (envDraw i)
    nextRows :=
      if sampleNextObs then
        some (fun i => rb.buf (((batchIdxes i).toNat + 1) % rb.bufferSize) (envDraw i))
      else none }

/-- `ReplayBuffer.sample` (buffers.py lines 124-165).  `idxDraw` is the
outcome of the `randint` that picks slot indices (its `i`-th value is used
only below the bound the source passes to `randint`); `envDraw` the outcome
of the per-draw environment `randint`.  The returned pair carries the
post-call cursor state, which the source never writes. -/
def ReplayBuffer.sample {α : Type} (rb : ReplayBuffer α) (batchSize : Int)
    (sampleNextObs : Bool) (idxDraw : Nat → Nat) (envDraw : Nat → Nat) :
    Except SampleError (UniformSample α × ReplayBuffer α) :=
  if batchSize ≤ 0 then .error .invalidBatchSize
  else if rb.full = false ∧ rb.pos = 0 then .error .emptyBuffer
  else if rb.full = true then
    let validIdxes := validIdxesFull rb.bufferSize rb.pos sampleNextObs
    if validIdxes.length = 0 then .error .emptyValidRange
    else
      let batchIdxes : Nat → Int := fun i => validIdxes.getD (idxDraw i) 0
      .ok (rb.getSamples batchIdxes sampleNextObs envDraw, rb)
  else
    let maxPosToSample : Int := if sampleNextObs then (rb.pos : Int) - 1 else (rb.pos : Int)
    if maxPosToSample = 0 then .error .insufficientData
    else
      let batchIdxes : Nat → Int := fun i => (idxDraw i : Int)
      .ok (rb.getSamples batchIdxes sampleNextObs envDraw, rb)

/-- The exceptions of `SequentialReplayBuffer.sample` (buffers.py lines
228-260), one constructor per distinct raise site. -/
inductive SeqSampleError where
  | invalidBatchSize
  | emptyBuffer
  | batchLargerThanBuffer
  | sequenceTooLong
  | sequenceTooLongFull
  | insufficientSampleable
deriving DecidableEq

/-- The `valid_idxes` tensor of the full branch of
`SequentialReplayBuffer.sample` (buffers.py lines 248-256). -/
def seqValidIdxes (bufferSize pos : Nat) (sequenceLength : Int) : List Int :=
  let firstRangeEnd : Int := (pos : Int) - sequenceLength + 1
  let secondRangeEnd : Int :=
    if 0 ≤ firstRangeEnd then (bufferSize : Int) else (bufferSize : Int) + firstRangeEnd
  pyRange 0 firstRangeEnd ++ pyRange (pos : Int) secondRangeEnd

/-- The result of `SequentialReplayBuffer.sample`: the drawn window starts,
the `[batch_dim, sequence_length]` slot-index tensor, and the final
`[n_samples, sequence_length, batch_size]` output, each as an index
function. -/
structure SequenceSample (α : Type) where
  starts : Nat → Int
  idxes : Nat → Nat → Nat
  out : Nat → Nat → Nat → α

/-- `SequentialReplayBuffer._get_samples` (buffers.py lines 277-304) as the
flattened gather: `env_idxes = randint(0, n_envs, (batch_dim,)).view(-1, 1)
.repeat(1, L).view(-1)` places outcome `envDraw (m / L)` at flat position
`m`, and the flattened `batch_idxes` places slot `idxes (m / L) (m % L)`
there, so one window is pinned to one environment draw. -/
def SequentialReplayBuffer.getSamples {α : Type} (rb : ReplayBuffer α)
    (idxes : Nat → Nat → Nat) (sequenceLength : Nat) (envDraw : Nat → Nat) :
    Nat → α :=
  fun m => rb.buf (idxes (m / sequenceLength) (m % sequenceLength))
    (envDraw (m / sequenceLength))

/-- `SequentialReplayBuffer.sample` (buffers.py lines 197-275): the control
checks, the valid window starts (full: two ranges around the cursor;
not full: `randint(0, pos - sequence_length + 1)`), window expansion
`(start_idxes.reshape(-1, 1) + arange(L)) % buffer_size`, the flat gather,
and the `reshape(n_samples, batch_size, L).permute(0, -1, -2)` producing
`out`. -/
def SequentialReplayBuffer.sample {α : Type} (rb : ReplayBuffer α)
    (batchSize nSamples sequenceLength : Int) (idxDraw : Nat → Nat)
    (envDraw : Nat → Nat) :
    Except SeqSampleError (SequenceSample α × ReplayBuffer α) :=
  let batchDim := batchSize * nSamples
  if batchDim ≤ 0 then .error .invalidBatchSize
  else if rb.full = false ∧ rb.pos = 0 then .error .emptyBuffer
  else if (rb.bufferSize : Int) < batchDim then .error .batchLargerThanBuffer
  else if rb.full = false ∧ (rb.pos : Int) - sequenceLength + 1 < 1 then
    .error .sequenceTooLong
  else if rb.full = true ∧ (rb.bufferSize : Int) < sequenceLength then
    .error .sequenceTooLongFull
  else
    let startsE : Except SeqSampleError (Nat → Int) :=
      if rb.full = true then
        let validIdxes := seqValidIdxes rb.bufferSize rb.pos sequenceLength
        if (validIdxes.length : Int) < batchDim then .error .insufficientSampleable
        else .ok (fun k => validIdxes.getD (idxDraw k) 0)
      else .ok (fun k => (idxDraw k : Int))
    match startsE with
    | .error e => .error e
    | .ok starts =>
      let idxes : Nat → Nat → Nat :=
        fun k j => ((starts k).toNat + j) % rb.bufferSize
      let flat := SequentialReplayBuffer.getSamples rb idxes
        sequenceLength.toNat envDraw
      let out : Nat → Nat → Nat → α := fun s j b =>
        flat ((s * batchSize.toNat + b) * sequenceLength.toNat + j)
      .ok ({ starts := starts, idxes := idxes, out := out }, rb)

/-- The cursor state after a call that returns an explicit post state on
success; a raise leaves the Python object's state as it was. -/
def exceptPost {α β ε : Type} (r : Except ε (β × ReplayBuffer α))
    (rb : ReplayBuffer α) : ReplayBuffer α :=
  match r with
  | .ok p => p.2
  | .error _ => rb

/-- A fresh `ReplayBuffer(buffer_size=5, n_envs=1)`; the initial table
contents are irrelevant and modelled as the constant 100. -/
def rbC4 : ReplayBuffer Nat :=
  { bufferSize := 5, nEnvs := 1, buf := fun _ _ => 100, pos := 0, full := false }

/-- A batch of 7 sequentially numbered records 0..6 for one environment. -/
def dataC4 : List (Nat → Nat) := (List.range 7).map (fun t => fun _ => t)

/-- C4: for a fresh buffer with capacity 5 and one environment, a single
`add` of 7 sequentially numbered records 0..6 succeeds and leaves the slots
holding [5, 6, 2, 3, 4] at positions [0, 1, 2, 3, 4], with `pos = 2` and
`full = true`. -/
theorem C4_wraparound :
    (match rbC4.add dataC4 with
      | .ok rb =>
        some (rb.buf 0 0, rb.buf 1 0, rb.buf 2 0, rb.buf 3 0, rb.buf 4 0, rb.pos, rb.full)
      | .error _ => none) = some (5, 6, 2, 3, 4, 2, true) := rfl

/-- A buffer of capacity 5 with one record already written (`pos = 1`,
not full). -/
def rbC2 : ReplayBuffer Nat :=
  { bufferSize := 5, nEnvs := 1, buf := fun _ _ => 0, pos := 1, full := false }

/-- A batch of 12 sequentially numbered records. -/
def dataC2 : List (Nat → Nat) := (List.range 12).map (fun t => fun _ => t)

/-- C2: the claim says `add` succeeds for every buffer state and every batch
longer than capacity, keeping the trailing `capacity` records.  The code
slices `data[-buffer_size - next_pos:]`, which retains
`buffer_size + next_pos` rows while the destination index list has
`buffer_size - pos + next_pos` entries; for `pos = 1` and a batch of 12 the
write is 8 rows against 7 indices and the torch assignment raises.  This
evaluates the embedded code at that failing input. -/
theorem C2_oversized_add_crashes :
    rbC2.add dataC2 = Except.error AddError.writeShapeMismatch := rfl

/-- C10: adding a batch whose leading length is 0 raises no error, writes to
no slot, and leaves `pos` and `full` (and the whole table) unchanged. -/
theorem C10_zero_length_add {α : Type} (rb : ReplayBuffer α)
    (h : rb.pos < rb.bufferSize) : rb.add [] = Except.ok rb := by
  obtain ⟨C, E, buf, pos, full⟩ := rb
  have h' : pos < C := h
  have hi : addIdxes C pos pos 0 full = [] := by
    unfold addIdxes
    rw [if_neg (show ¬(pos < pos ∨ (C ≤ 0 ∧ full = false)) by
          rintro (h1 | ⟨h2, _⟩) <;> omega)]
    simp [pyRangeN]
  have hd : addDataToStore C pos ([] : List (Nat → α)) = [] := by
    unfold addDataToStore
    rw [if_neg (by simp)]
  have hf : addFull C pos 0 full = full := by
    unfold addFull
    rw [if_neg (by omega)]
  simp only [ReplayBuffer.add, List.length_nil, Nat.add_zero,
    Nat.mod_eq_of_lt h', hi, hd, hf]
  simp [writeRows]

/-- A buffer of capacity 4 with cursor at 3 and `full` already set. -/
def rbC10 : ReplayBuffer Nat :=
  { bufferSize := 4, nEnvs := 2, buf := fun _ _ => 7, pos := 3, full := true }

theorem C10_witness : ReplayBuffer.add rbC10 [] = Except.ok rbC10 :=
  C10_zero_length_add rbC10 (by decide)

/-- C5: whenever `add` succeeds, the new cursor is `(pos + L) % capacity`
(hence in `[0, capacity)`), `full` becomes true exactly when
`pos + L >= capacity` (and stays true if it already was), and an already
set `full` flag is never reset. -/
theorem C5_cursor_and_full {α : Type} (rb : ReplayBuffer α)
    (data : List (Nat → α)) (rb2 : ReplayBuffer α) (h0 : 0 < rb.bufferSize)
    (hok : rb.add data = Except.ok rb2) :
    rb2.pos = (rb.pos + data.length) % rb.bufferSize ∧
    rb2.pos < rb.bufferSize ∧
    (rb2.full = true ↔ (rb.full = true ∨ rb.bufferSize ≤ rb.pos + data.length)) ∧
    (rb.full = true → rb2.full = true) := by
  simp only [ReplayBuffer.add] at hok
  split at hok
  · injection hok with h
    subst h
    exact ⟨rfl, Nat.mod_lt _ h0, addFull_eq_true,
      fun hf => addFull_eq_true.mpr (Or.inl hf)⟩
  · split at hok
    · injection hok with h
      subst h
      exact ⟨rfl, Nat.mod_lt _ h0, addFull_eq_true,
        fun hf => addFull_eq_true.mpr (Or.inl hf)⟩
    · simp at hok

/-- A buffer of capacity 3 with two records written. -/
def rbC5 : ReplayBuffer Nat :=
  { bufferSize := 3, nEnvs := 1, buf := fun _ _ => 0, pos := 2, full := false }

/-- A two-row batch, which wraps the cursor past the end. -/
def dataC5 : List (Nat → Nat) := [fun _ => 10, fun _ => 11]

/-- The state after `rbC5.add dataC5` (that call succeeds). -/
def rbC5post : ReplayBuffer Nat :=
  match rbC5.add dataC5 with
  | .ok s => s
  | .error _ => rbC5

theorem C5_witness :
    rbC5post.pos = (rbC5.pos + dataC5.length) % rbC5.bufferSize ∧
    rbC5post.pos < rbC5.bufferSize ∧
    (rbC5post.full = true ↔ (rbC5.full = true ∨ rbC5.bufferSize ≤ rbC5.pos + dataC5.length)) ∧
    (rbC5.full = true → rbC5post.full = true) :=
  C5_cursor_and_full rbC5 dataC5 rbC5post (by decide) rfl

/-- C9: both samplers leave the cursor `pos`, the `full` flag and the stored
table untouched, whether they succeed or raise: the post-call state equals
the pre-call state for every argument and every random outcome (on a raise
the Python object keeps its previous state, which `exceptPost` reflects). -/
theorem C9_samplers_pure {α : Type} (rb : ReplayBuffer α)
    (batchSize nSamples sequenceLength : Int) (sampleNextObs : Bool)
    (d1 e1 d2 e2 : Nat → Nat) :
    exceptPost (rb.sample batchSize sampleNextObs d1 e1) rb = rb ∧
    exceptPost (SequentialReplayBuffer.sample rb batchSize nSamples
      sequenceLength d2 e2) rb = rb := by
  constructor
  · simp only [ReplayBuffer.sample]
    split_ifs <;> rfl
  · simp only [SequentialReplayBuffer.sample]
    split_ifs <;> rfl

theorem emod_pos_sub_one {C pos : Nat} (h0 : 0 < C) (hpos : pos < C) :
    ((pos : Int) - 1) % (C : Int) =
      if pos = 0 then (C : Int) - 1 else (pos : Int) - 1 := by
  split_ifs with h
  · subst h
    have h2 : (-1 + (C : Int) * 1) % (C : Int) = (-1 : Int) % (C : Int) :=
      Int.add_mul_emod_self_left (-1) ((C : Int)) 1
    have h3 : ((0 : Nat) : Int) - 1 = -1 := by norm_num
    rw [h3, ← h2, show (-1 + (C : Int) * 1) = (C : Int) - 1 by ring,
      Int.emod_eq_of_lt (by omega) (by omega)]
  · rw [Int.emod_eq_of_lt (by omega) (by omega)]

theorem validIdxesFull_true_excludes {C pos : Nat} {x : Int} (h0 : 0 < C)
    (hpos : pos < C) (hx : x ∈ validIdxesFull C pos true) :
    x ≠ ((pos : Int) - 1) % (C : Int) := by
  rw [emod_pos_sub_one h0 hpos]
  simp only [validIdxesFull, List.mem_append, mem_pyRange] at hx
  split_ifs at hx with h1 <;> split_ifs with h2 <;> omega

theorem validIdxesFull_false_all {C pos : Nat} (hpos : pos < C) :
    validIdxesFull C pos false = pyRange 0 (C : Int) := by
  show pyRange 0 (pos : Int) ++
      pyRange (pos : Int)
        (if (0 : Int) ≤ (pos : Int) then (C : Int) else (C : Int) + (pos : Int)) =
      pyRange 0 (C : Int)
  rw [if_pos (show (0 : Int) ≤ (pos : Int) by omega)]
  exact pyRange_append (by omega) (by omega)

theorem length_validIdxesFull (C pos : Nat) (sampleNextObs : Bool)
    (h : pos ≤ C) :
    (validIdxesFull C pos sampleNextObs).length =
      if sampleNextObs = true then C - 1 else C := by
  cases sampleNextObs
  · show (pyRange 0 (pos : Int) ++
      pyRange (pos : Int)
        (if (0 : Int) ≤ (pos : Int) then (C : Int) else (C : Int) + (pos : Int))).length = C
    simp only [List.length_append, length_pyRange]
    split_ifs <;> omega
  · show (pyRange 0 ((pos : Int) - 1) ++
      pyRange (pos : Int)
        (if (0 : Int) ≤ (pos : Int) - 1 then (C : Int)
          else (C : Int) + ((pos : Int) - 1))).length = C - 1
    simp only [List.length_append, length_pyRange]
    split_ifs <;> omega

/-- C1 (amended): when the buffer is full, with `include_next_field = true`
every drawn index differs from `(pos - 1) mod capacity`; but with
`include_next_field = false` no index is excluded — the valid set is the
whole of `[0, capacity)` (in particular `pos` itself can be drawn). -/
theorem C1_full_sampling_exclusion {α : Type} (rb : ReplayBuffer α)
    (batchSize : Int) (idxDraw envDraw : Nat → Nat) (res : UniformSample α)
    (rb2 : ReplayBuffer α) (i : Nat) (hpos : rb.pos < rb.bufferSize)
    (hfull : rb.full = true)
    (hok : rb.sample batchSize true idxDraw envDraw = Except.ok (res, rb2))
    (hd : idxDraw i < (validIdxesFull rb.bufferSize rb.pos true).length) :
    res.batchIdxes i ≠ ((rb.pos : Int) - 1) % (rb.bufferSize : Int) ∧
    validIdxesFull rb.bufferSize rb.pos false = pyRange 0 (rb.bufferSize : Int) := by
  refine ⟨?_, validIdxesFull_false_all hpos⟩
  simp only [ReplayBuffer.sample] at hok
  split_ifs at hok
  simp only [Except.ok.injEq, Prod.mk.injEq] at hok
  obtain ⟨hres, hrb2⟩ := hok
  subst hres
  dsimp only [ReplayBuffer.getSamples]
  have hmem : (validIdxesFull rb.bufferSize rb.pos true).getD (idxDraw i) 0 ∈
      validIdxesFull rb.bufferSize rb.pos true := by
    rw [List.getD_eq_getElem _ _ hd]
    exact List.getElem_mem _
  exact validIdxesFull_true_excludes (by omega) hpos hmem

/-- A full buffer with capacity 3 and cursor `pos = 1`. -/
def rbC1 : ReplayBuffer Nat :=
  { bufferSize := 3, nEnvs := 1, buf := fun _ _ => 0, pos := 1, full := true }

/-- C1 (counterexample): the claim says that with `include_next_field =
false` and a full buffer the index `pos` is forbidden.  In the code the
valid set is `range(0, pos) + range(pos, buffer_size)` — all indices — so
the random outcome picking entry 1 of `valid_idxes` draws exactly
`pos = 1`. -/
theorem C1_counterexample :
    (match rbC1.sample 1 false (fun _ => 1) (fun _ => 0) with
      | .ok (r, _) => some (r.batchIdxes 0)
      | .error _ => none) = some ((rbC1.pos : Int)) ∧ rbC1.full = true :=
  ⟨rfl, rfl⟩

/-- A full buffer with capacity 3 and cursor `pos = 1` (witness copy). -/
def rbC1w : ReplayBuffer Nat :=
  { bufferSize := 3, nEnvs := 1, buf := fun _ _ => 0, pos := 1, full := true }

/-- The sample drawn from `rbC1w` with the all-zero random outcome. -/
def resC1w : UniformSample Nat :=
  match rbC1w.sample 2 true (fun _ => 0) (fun _ => 0) with
  | .ok (r, _) => r
  | .error _ => { batchIdxes := fun _ => 0, envIdxes := fun _ => 0,
                  rows := fun _ => 0, nextRows := none }

/-- The post state of that call. -/
def rb2C1w : ReplayBuffer Nat :=
  match rbC1w.sample 2 true (fun _ => 0) (fun _ => 0) with
  | .ok (_, s) => s
  | .error _ => rbC1w

theorem C1_witness :
    resC1w.batchIdxes 0 ≠ ((rbC1w.pos : Int) - 1) % (rbC1w.bufferSize : Int) ∧
    validIdxesFull rbC1w.bufferSize rbC1w.pos false =
      pyRange 0 (rbC1w.bufferSize : Int) :=
  C1_full_sampling_exclusion rbC1w 2 (fun _ => 0) (fun _ => 0) resC1w rb2C1w 0
    (by decide) rfl rfl (by decide)

/-- C6 (amended): `sample` fails with the invalid-batch error iff
`batch_size <= 0`; given a positive batch size it fails with the
empty-buffer error iff nothing was written; given records present and the
buffer not full it fails with the insufficient-data error iff
`include_next_field` and exactly one record was written; a full buffer of
capacity 1 with `include_next_field` fails on `randint` over the empty
valid set (a case the claim counted as success); in every other case the
call succeeds. -/
theorem C6_sample_error_cases {α : Type} (rb : ReplayBuffer α)
    (batchSize : Int) (sampleNextObs : Bool) (d e : Nat → Nat)
    (h0 : 0 < rb.bufferSize) (hpos : rb.pos < rb.bufferSize) :
    (rb.sample batchSize sampleNextObs d e =
        Except.error SampleError.invalidBatchSize ↔ batchSize ≤ 0) ∧
    (0 < batchSize →
      (rb.sample batchSize sampleNextObs d e =
          Except.error SampleError.emptyBuffer ↔
        (rb.full = false ∧ rb.pos = 0))) ∧
    (0 < batchSize → (rb.full = true ∨ 0 < rb.pos) →
      (rb.sample batchSize sampleNextObs d e =
          Except.error SampleError.insufficientData ↔
        (rb.full = false ∧ sampleNextObs = true ∧ rb.pos = 1))) ∧
    (0 < batchSize → (rb.full = true ∨ 0 < rb.pos) →
      (rb.sample batchSize sampleNextObs d e =
          Except.error SampleError.emptyValidRange ↔
        (rb.full = true ∧ sampleNextObs = true ∧ rb.bufferSize = 1))) ∧
    (0 < batchSize → (rb.full = true ∨ 0 < rb.pos) →
      ¬(rb.full = false ∧ sampleNextObs = true ∧ rb.pos = 1) →
      ¬(rb.full = true ∧ sampleNextObs = true ∧ rb.bufferSize = 1) →
      ∃ p, rb.sample batchSize sampleNextObs d e = Except.ok p) := by
  have hlenT : (validIdxesFull rb.bufferSize rb.pos true).length =
      rb.bufferSize - 1 := by
    rw [length_validIdxesFull rb.bufferSize rb.pos true (by omega)]
    simp
  have hlenF : (validIdxesFull rb.bufferSize rb.pos false).length =
      rb.bufferSize := by
    rw [length_validIdxesFull rb.bufferSize rb.pos false (by omega)]
    simp
  cases sampleNextObs <;>
    refine ⟨?_, ?_, ?_, ?_, ?_⟩ <;>
    intros <;>
    simp only [ReplayBuffer.sample] <;>
    split_ifs <;>
    first
      | exact ⟨_, rfl⟩
      | (exfalso; omega)
      | (simp_all; done)
      | (simp_all; omega)
      | (exfalso; simp_all; omega)
      | (have hone : rb.bufferSize = 1 := by omega
         simp_all)
      | omega

/-- A full buffer of capacity 1 (one record written, cursor wrapped to 0). -/
def rbC6 : ReplayBuffer Nat :=
  { bufferSize := 1, nEnvs := 1, buf := fun _ _ => 0, pos := 0, full := true }

/-- C6 (counterexample): the claim says that with records present the only
failures are the empty-buffer and the not-full one-record cases, and that a
full buffer always succeeds.  A full capacity-1 buffer with
`include_next_field` makes `valid_idxes` empty and `randint(0, 0, ...)`
raises. -/
theorem C6_counterexample :
    rbC6.sample 1 true (fun _ => 0) (fun _ => 0) =
      Except.error SampleError.emptyValidRange ∧
    rbC6.full = true ∧ 0 < rbC6.bufferSize :=
  ⟨rfl, rfl, by decide⟩

/-- A not-full buffer of capacity 3 with exactly one record written. -/
def rbC6w : ReplayBuffer Nat :=
  { bufferSize := 3, nEnvs := 1, buf := fun _ _ => 0, pos := 1, full := false }

theorem C6_witness :
    rbC6w.sample 1 true (fun _ => 0) (fun _ => 0) =
      Except.error SampleError.insufficientData ↔
    (rbC6w.full = false ∧ true = true ∧ rbC6w.pos = 1) :=
  ((C6_sample_error_cases rbC6w 1 true (fun _ => 0) (fun _ => 0) (by decide)
    (by decide)).2.2.1) (by decide) (Or.inr (by decide))

/-- Geometry of the full-branch valid window starts: every start is a slot
in `[0, capacity)`, never lies in the `sequence_length - 1` slots strictly
before the cursor, and its window touches the cursor slot `pos` only when
the window begins exactly at `pos` (step 0). -/
theorem seqValidIdxes_window {C pos : Nat} {sl s : Int} (h0 : 0 < C)
    (hpos : pos < C) (hsl1 : 1 ≤ sl) (hslC : sl ≤ (C : Int))
    (hs : s ∈ seqValidIdxes C pos sl) :
    0 ≤ s ∧ s < (C : Int) ∧
    ¬((pos : Int) - sl + 1 ≤ s ∧ s < (pos : Int)) ∧
    ∀ j : Nat, (j : Int) < sl →
      ((s.toNat + j) % C = pos → (j = 0 ∧ s = (pos : Int))) := by
  simp only [seqValidIdxes, List.mem_append, mem_pyRange] at hs
  split_ifs at hs with hf
  all_goals (
    refine ⟨by omega, by omega, by omega, ?_⟩
    intro j hj heq
    rcases Nat.lt_or_ge (s.toNat + j) C with hlt | hge
    · rw [Nat.mod_eq_of_lt hlt] at heq
      omega
    · rw [Nat.mod_eq_sub_mod hge, Nat.mod_eq_of_lt (by omega)] at heq
      omega)

/-- C3 (amended): when the buffer is full, a drawn window start never lies
in the `sequence_length - 1` slots strictly before the cursor, and a drawn
window contains the cursor slot `pos` only as its first element, i.e. only
when the start is `pos` itself (the claim's forbidden range
`[pos - sequence_length + 1, pos]` wrongly includes `pos`). -/
theorem C3_full_window_noncrossing {α : Type} (rb : ReplayBuffer α)
    (batchSize nSamples sequenceLength : Int) (d e : Nat → Nat)
    (res : SequenceSample α) (rb2 : ReplayBuffer α) (k j : Nat)
    (hpos : rb.pos < rb.bufferSize) (hfull : rb.full = true)
    (hsl1 : 1 ≤ sequenceLength)
    (hok : SequentialReplayBuffer.sample rb batchSize nSamples sequenceLength
      d e = Except.ok (res, rb2))
    (hd : d k < (seqValidIdxes rb.bufferSize rb.pos sequenceLength).length)
    (hj : (j : Int) < sequenceLength) :
    ¬((rb.pos : Int) - sequenceLength + 1 ≤ res.starts k ∧
        res.starts k < (rb.pos : Int)) ∧
    (res.idxes k j = rb.pos → (j = 0 ∧ res.starts k = (rb.pos : Int))) := by
  simp only [SequentialReplayBuffer.sample] at hok
  split_ifs at hok
  have hslC : ¬((rb.bufferSize : Int) < sequenceLength) :=
    fun hc =>
      ‹¬(rb.full = true ∧ (rb.bufferSize : Int) < sequenceLength)› ⟨hfull, hc⟩
  simp only [Except.ok.injEq, Prod.mk.injEq] at hok
  obtain ⟨hres, hrb2⟩ := hok
  subst hres
  have hmem : (seqValidIdxes rb.bufferSize rb.pos sequenceLength).getD (d k) 0 ∈
      seqValidIdxes rb.bufferSize rb.pos sequenceLength := by
    rw [List.getD_eq_getElem _ _ hd]
    exact List.getElem_mem _
  have hw := seqValidIdxes_window (by omega) hpos hsl1 (by omega) hmem
  exact ⟨hw.2.2.1, fun he => hw.2.2.2 j hj he⟩

/-- A full buffer of capacity 5 with cursor 2, its table tagged so that the
record stored at slot `s` is `s` itself. -/
def rbC3 : ReplayBuffer Nat :=
  { bufferSize := 5, nEnvs := 1, buf := fun s _ => s, pos := 2, full := true }

/-- C3 (counterexample): the claim forbids window starts in
`[pos - sequence_length + 1, pos]` and says no window slot equals `pos`.
With capacity 5, `pos = 2`, `sequence_length = 2`, the valid starts are
`[0, 2, 3, 4]`; the outcome picking entry 1 draws start `pos = 2`, and that
window's first slot is exactly the cursor slot `pos`. -/
theorem C3_counterexample :
    (match SequentialReplayBuffer.sample rbC3 1 1 2 (fun _ => 1) (fun _ => 0)
        with
      | .ok (r, _) => some (r.starts 0, r.idxes 0 0)
      | .error _ => none) = some (((rbC3.pos : Int)), rbC3.pos) ∧
    rbC3.full = true :=
  ⟨rfl, rfl⟩

/-- A full buffer of capacity 5 with cursor 2 (witness copy). -/
def rbC3w : ReplayBuffer Nat :=
  { bufferSize := 5, nEnvs := 1, buf := fun _ _ => 0, pos := 2, full := true }

/-- The sequence sample drawn from `rbC3w` with the all-zero outcome. -/
def resC3w : SequenceSample Nat :=
  match SequentialReplayBuffer.sample rbC3w 1 1 2 (fun _ => 0) (fun _ => 0) with
  | .ok (r, _) => r
  | .error _ => { starts := fun _ => 0, idxes := fun _ _ => 0,
                  out := fun _ _ _ => 0 }

/-- The post state of that call. -/
def rb2C3w : ReplayBuffer Nat :=
  match SequentialReplayBuffer.sample rbC3w 1 1 2 (fun _ => 0) (fun _ => 0) with
  | .ok (_, s) => s
  | .error _ => rbC3w

theorem C3_witness :
    ¬((rbC3w.pos : Int) - 2 + 1 ≤ resC3w.starts 0 ∧
        resC3w.starts 0 < (rbC3w.pos : Int)) ∧
    (resC3w.idxes 0 1 = rbC3w.pos →
      (1 = 0 ∧ resC3w.starts 0 = (rbC3w.pos : Int))) :=
  C3_full_window_noncrossing rbC3w 1 1 2 (fun _ => 0) (fun _ => 0) resC3w
    rb2C3w 0 1 (by decide) rfl (by decide) rfl (by decide) (by decide)

set_option maxHeartbeats 1600000 in
/-- C7 (amended): with `N = batch_size * n_samples`, `sample_sequence` fails
with the invalid-batch error iff `N <= 0`; then with the empty-buffer error
iff nothing was written; then with the capacity errors exactly when `N`
exceeds capacity, or (not full) `pos - sequence_length + 1 < 1`, or (full)
`sequence_length` exceeds capacity; the insufficient-data check exists only
in the full branch — a not-full buffer that passes the other checks always
succeeds even when it has fewer valid starts than `N` (the claim asserted
the check in both branches). -/
theorem C7_seq_error_cases {α : Type} (rb : ReplayBuffer α) (bs ns sl : Int)
    (d e : Nat → Nat) (h0 : 0 < rb.bufferSize)
    (hpos : rb.pos < rb.bufferSize) :
    (SequentialReplayBuffer.sample rb bs ns sl d e =
        Except.error SeqSampleError.invalidBatchSize ↔ bs * ns ≤ 0) ∧
    (0 < bs * ns →
      (SequentialReplayBuffer.sample rb bs ns sl d e =
          Except.error SeqSampleError.emptyBuffer ↔
        (rb.full = false ∧ rb.pos = 0))) ∧
    (0 < bs * ns → (rb.full = true ∨ 0 < rb.pos) →
      (SequentialReplayBuffer.sample rb bs ns sl d e =
          Except.error SeqSampleError.batchLargerThanBuffer ↔
        (rb.bufferSize : Int) < bs * ns)) ∧
    (0 < bs * ns → (rb.full = true ∨ 0 < rb.pos) →
      bs * ns ≤ (rb.bufferSize : Int) →
      (SequentialReplayBuffer.sample rb bs ns sl d e =
          Except.error SeqSampleError.sequenceTooLong ↔
        (rb.full = false ∧ (rb.pos : Int) - sl + 1 < 1))) ∧
    (0 < bs * ns → (rb.full = true ∨ 0 < rb.pos) →
      bs * ns ≤ (rb.bufferSize : Int) →
      (SequentialReplayBuffer.sample rb bs ns sl d e =
          Except.error SeqSampleError.sequenceTooLongFull ↔
        (rb.full = true ∧ (rb.bufferSize : Int) < sl))) ∧
    (0 < bs * ns → (rb.full = true ∨ 0 < rb.pos) →
      bs * ns ≤ (rb.bufferSize : Int) → rb.full = true →
      sl ≤ (rb.bufferSize : Int) →
      (SequentialReplayBuffer.sample rb bs ns sl d e =
          Except.error SeqSampleError.insufficientSampleable ↔
        (((seqValidIdxes rb.bufferSize rb.pos sl).length : Int) < bs * ns))) ∧
    (0 < bs * ns → (rb.full = true ∨ 0 < rb.pos) →
      bs * ns ≤ (rb.bufferSize : Int) → rb.full = false →
      ¬((rb.pos : Int) - sl + 1 < 1) →
      ∃ p, SequentialReplayBuffer.sample rb bs ns sl d e = Except.ok p) ∧
    (0 < bs * ns → (rb.full = true ∨ 0 < rb.pos) →
      bs * ns ≤ (rb.bufferSize : Int) → rb.full = true →
      sl ≤ (rb.bufferSize : Int) →
      ¬(((seqValidIdxes rb.bufferSize rb.pos sl).length : Int) < bs * ns) →
      ∃ p, SequentialReplayBuffer.sample rb bs ns sl d e = Except.ok p) := by
  refine ⟨?_, ?_, ?_, ?_, ?_, ?_, ?_, ?_⟩ <;>
    intros <;>
    simp only [SequentialReplayBuffer.sample] <;>
    split_ifs <;>
    first
      | exact ⟨_, rfl⟩
      | (exfalso; omega)
      | (simp_all; done)
      | (simp_all; omega)
      | (exfalso; simp_all; omega)
      | omega

/-- A not-full buffer of capacity 10 with two records written. -/
def rbC7 : ReplayBuffer Nat :=
  { bufferSize := 10, nEnvs := 1, buf := fun _ _ => 0, pos := 2, full := false }

/-- C7 (counterexample): the claim says `sample_sequence` fails with the
insufficient-data error whenever the valid starts are fewer than `N`, in
the not-full case too.  Here `N = 5 * 1 = 5` windows are requested while
only `pos - sequence_length + 1 = 2` starts exist, yet the call succeeds
(the not-full branch has no such check and draws with replacement). -/
theorem C7_counterexample :
    (match SequentialReplayBuffer.sample rbC7 5 1 1 (fun _ => 0) (fun _ => 0)
        with
      | .ok _ => true
      | .error _ => false) = true ∧
    (rbC7.pos : Int) - 1 + 1 < 5 * 1 :=
  ⟨rfl, by decide⟩

/-- A full buffer of capacity 5 with cursor 2 (C7 witness state). -/
def rbC7w : ReplayBuffer Nat :=
  { bufferSize := 5, nEnvs := 1, buf := fun _ _ => 0, pos := 2, full := true }

theorem C7_witness :
    SequentialReplayBuffer.sample rbC7w 2 1 2 (fun _ => 0) (fun _ => 0) =
      Except.error SeqSampleError.insufficientSampleable ↔
    (((seqValidIdxes rbC7w.bufferSize rbC7w.pos 2).length : Int) < 2 * 1) :=
  ((C7_seq_error_cases rbC7w 2 1 2 (fun _ => 0) (fun _ => 0) (by decide)
      (by decide)).2.2.2.2.2.1) (by decide) (Or.inl rfl) (by decide) rfl
    (by decide)

/-- C8: every cell of the returned `[n_samples, sequence_length,
batch_size]` tensor reads the buffer at its window's slot for that step and
at the single environment drawn for that window — `envDraw (s * batch_size
+ b)`, independent of the step `j`, the environment outcome being a fresh
`randint(0, n_envs)` per window.  This is the `view(-1, 1).repeat(1, L)`
expansion of `_get_samples` together with the final reshape and permute. -/
theorem C8_env_pinning {α : Type} (rb : ReplayBuffer α) (bs ns sl : Int)
    (d e : Nat → Nat) (res : SequenceSample α) (rb2 : ReplayBuffer α)
    (s b j : Nat)
    (hok : SequentialReplayBuffer.sample rb bs ns sl d e =
      Except.ok (res, rb2))
    (hj : j < sl.toNat) :
    res.out s j b =
      rb.buf (res.idxes (s * bs.toNat + b) j) (e (s * bs.toNat + b)) := by
  simp only [SequentialReplayBuffer.sample] at hok
  split_ifs at hok
  all_goals (
    simp only [Except.ok.injEq, Prod.mk.injEq] at hok
    obtain ⟨hres, hrb2⟩ := hok
    subst hres
    dsimp only [SequentialReplayBuffer.getSamples]
    rw [show ((s * bs.toNat + b) * sl.toNat + j) / sl.toNat =
          s * bs.toNat + b by
        rw [Nat.mul_comm (s * bs.toNat + b) sl.toNat,
          Nat.mul_add_div (by omega), Nat.div_eq_of_lt hj, Nat.add_zero],
      show ((s * bs.toNat + b) * sl.toNat + j) % sl.toNat = j by
        rw [Nat.mul_comm (s * bs.toNat + b) sl.toNat, Nat.mul_add_mod,
          Nat.mod_eq_of_lt hj]])

/-- A full buffer of capacity 4 with 3 environments, its table tagged so
that the record stored for environment `en` is `en` itself. -/
def rbC8 : ReplayBuffer Nat :=
  { bufferSize := 4, nEnvs := 3, buf := fun _ en => en, pos := 0, full := true }

/-- The per-window environment outcome used in the C8 witness. -/
def eC8 : Nat → Nat := fun k => k % 3

/-- The sequence sample drawn from `rbC8` with start outcome 0. -/
def resC8 : SequenceSample Nat :=
  match SequentialReplayBuffer.sample rbC8 1 1 2 (fun _ => 0) eC8 with
  | .ok (r, _) => r
  | .error _ => { starts := fun _ => 0, idxes := fun _ _ => 0,
                  out := fun _ _ _ => 0 }

/-- The post state of that call. -/
def rb2C8 : ReplayBuffer Nat :=
  match SequentialReplayBuffer.sample rbC8 1 1 2 (fun _ => 0) eC8 with
  | .ok (_, st) => st
  | .error _ => rbC8

theorem C8_witness :
    resC8.out 0 1 0 =
      rbC8.buf (resC8.idxes (0 * (1 : Int).toNat + 0) 1)
        (eC8 (0 * (1 : Int).toNat + 0)) :=
  C8_env_pinning rbC8 1 1 2 (fun _ => 0) eC8 resC8 rb2C8 0 0 1 rfl (by decide)
